import Mathlib

/-!
Verification development for the polygon-model bytecode interpreter in
`similar/3d/interp.cpp` (DXX-Rebirth).  The interpreter walks a byte buffer
of opcoded records (`iterate_polymodel` / `dispatch_polymodel_op`) with one
of several behaviors (color probe, static draw, morph draw, init scan,
byte swap, chunk collection).  This file shallowly embeds the buffer as a
`List Nat` of byte values, the dispatch loop as fuel-indexed recursive
functions, and the per-opcode handlers as pure functions, and proves the
spec's claims about record layout, cursor motion, error handling, the
byte-swap pass, and the init scan.
-/

namespace Interp

/-- Errors a traversal can signal in the embedding.  `malformedModel` models
the `throw std::runtime_error("invalid polygon model")` in
`interpreter_base::op_default`; `outOfBounds` marks a read or write outside
the model buffer (undefined behavior in the C++, made explicit here);
`noFuel` is an artifact of the fuel-indexed embedding and never occurs on
runs given sufficient fuel. -/
inductive InterpError where
  | malformedModel : InterpError
  | outOfBounds : InterpError
  | noFuel : InterpError
deriving DecidableEq, Repr

instance {ε α : Type} [DecidableEq ε] [DecidableEq α] : DecidableEq (Except ε α) := fun x y =>
  match x, y with
  | .ok a, .ok b =>
    if h : a = b then .isTrue (by rw [h]) else .isFalse (fun he => h (Except.ok.inj he))
  | .error e, .error f =>
    if h : e = f then .isTrue (by rw [h]) else .isFalse (fun he => h (Except.error.inj he))
  | .ok _, .error _ => .isFalse (fun he => Except.noConfusion he)
  | .error _, .ok _ => .isFalse (fun he => Except.noConfusion he)

/-- Native (little-endian) 16-bit read at byte offset `p`, as the unsigned
value `w(p)` yields when converted to `uint16_t` (`get_raw_opcode`,
`get_op_subcount`). -/
def read16 (buf : List Nat) (p : Nat) : Option Nat :=
  match buf.get? p, buf.get? (p+1) with
  | some b0, some b1 => some (b0 + 256 * b1)
  | _, _ => none

/-- Signed 16-bit read (`w(p)` as `int16_t`), used for branch offsets. -/
def readS16 (buf : List Nat) (p : Nat) : Option Int :=
  (read16 buf p).map (fun v => if v < 32768 then (v : Int) else (v : Int) - 65536)

/-- Little-endian byte pair encoding a 16-bit value. -/
def le16 (v : Nat) : List Nat := [v % 256, v / 256 % 256]

/-- Record length computed by `dispatch_polymodel_op` for each opcode, given
the vertex count `n` read by `get_op_subcount` (a `uint16_t`).
`sizeof(vms_vector)` is 12 (three 32-bit fixed-point fields) and
`sizeof(g3s_uvl)` is 12; `n / 2 * 2` is the value of `n & ~1` (low bit
cleared).  Opcodes: 1 `OP_DEFPOINTS`, 7 `OP_DEFP_START`, 2 `OP_FLATPOLY`,
3 `OP_TMAPPOLY`, 4 `OP_SORTNORM`, 5 `OP_RODBM`, 6 `OP_SUBCALL`,
8 `OP_GLOW`.  The default (including `OP_EOF` = 0, on which the loop halts
at the 2-byte tag) is 2. -/
def record_size (op n : Nat) : Nat :=
  if op = 1 then n * 12 + 4
  else if op = 7 then n * 12 + 8
  else if op = 2 then 30 + (n / 2 * 2 + 1) * 2
  else if op = 3 then 30 + (n / 2 * 2 + 1) * 2 + n * 12
  else if op = 4 then 32
  else if op = 5 then 36
  else if op = 6 then 20
  else if op = 8 then 4
  else 2

/-- `round_up_odd n`: the least odd number that is `≥ n`, the natural
reading of the spec's `round_up_odd`. -/
def round_up_odd (n : Nat) : Nat :=
  if n % 2 = 1 then n else n + 1

/-- The record-length table exactly as claim C1 states it, with
`round_up_odd` read as "round up to an odd number".  Opcode numbering as in
`record_size`; 0 is `EndOfStream`. -/
def claimed_length (op n : Nat) : Nat :=
  if op = 0 then 2
  else if op = 1 then 4 + n * 12
  else if op = 7 then 8 + n * 12
  else if op = 2 then 30 + (round_up_odd n + 1) * 2
  else if op = 3 then 30 + (round_up_odd n + 1) * 2 + n * 12
  else if op = 4 then 32
  else if op = 5 then 36
  else if op = 6 then 20
  else 4

/-- The record-length table with the corrected point-index-table size: the
index table of a `FlatPolygon`/`TexturedPolygon` occupies `round_up_odd n`
16-bit slots (`n` slots when `n` is odd, `n + 1` when it is even), not
`round_up_odd n + 1` of them. -/
def amended_length (op n : Nat) : Nat :=
  if op = 0 then 2
  else if op = 1 then 4 + n * 12
  else if op = 7 then 8 + n * 12
  else if op = 2 then 30 + round_up_odd n * 2
  else if op = 3 then 30 + round_up_odd n * 2 + n * 12
  else if op = 4 then 32
  else if op = 5 then 36
  else if op = 6 then 20
  else 4

/-- The dispatch loop `iterate_polymodel` together with
`dispatch_polymodel_op`, restricted to cursor motion: starting at byte
position `p` it reads the raw 16-bit opcode, halts at `OP_EOF` returning
the cursor position of the terminal tag, reads the vertex count at `p + 2`
for the vertex-count-dependent opcodes, advances by `record_size`, and
fails with `malformedModel` on an opcode outside the known set
(`interpreter_base::op_default`).  It also returns the list of byte
positions of the records it dispatched.  The cursor motion is identical
for every behavior: handlers never change the advance distance. -/
def iterate_polymodel (buf : List Nat) : Nat → Nat → Except InterpError (Nat × List Nat)
  | 0, _ => .error .noFuel
  | fuel+1, p =>
    match read16 buf p with
    | none => .error .outOfBounds
    | some op =>
      if op = 0 then .ok (p, [])
      else if op = 1 ∨ op = 7 ∨ op = 2 ∨ op = 3 then
        match read16 buf (p + 2) with
        | none => .error .outOfBounds
        | some n =>
          match iterate_polymodel buf fuel (p + record_size op n) with
          | .ok (q, tr) => .ok (q, p :: tr)
          | .error e => .error e
      else if op = 4 ∨ op = 5 ∨ op = 6 ∨ op = 8 then
        match iterate_polymodel buf fuel (p + record_size op 0) with
        | .ok (q, tr) => .ok (q, p :: tr)
        | .error e => .error e
      else .error .malformedModel

/-- One record of a model stream as the cursor sees it: a 16-bit opcode
tag, the 16-bit field at bytes `[2,4)` (the vertex count for the
vertex-count-dependent opcodes), and the remaining payload bytes. -/
structure RawRecord where
  op : Nat
  n : Nat
  payload : List Nat
deriving DecidableEq, Repr

/-- A record is well formed when its opcode is one of the eight non-EOF
variants, its `[2,4)` field is a `uint16_t`, and its byte length is
exactly the length `dispatch_polymodel_op` computes for it. -/
def wfRecord (r : RawRecord) : Prop :=
  (r.op = 1 ∨ r.op = 7 ∨ r.op = 2 ∨ r.op = 3 ∨ r.op = 4 ∨ r.op = 5 ∨ r.op = 6 ∨ r.op = 8)
  ∧ r.n < 65536 ∧ r.payload.length + 4 = record_size r.op r.n

instance (r : RawRecord) : Decidable (wfRecord r) := by
  unfold wfRecord; infer_instance

/-- Byte encoding of one record: tag, `[2,4)` field, payload. -/
def encodeRecord (r : RawRecord) : List Nat :=
  le16 r.op ++ le16 r.n ++ r.payload

/-- Byte encoding of a record sequence. -/
def encodeRecords (rs : List RawRecord) : List Nat :=
  (rs.map encodeRecord).flatten

/-- A well-formed buffer: a sequence of known-opcode records followed by
the 2-byte `EndOfStream` tag. -/
def encodeModel (rs : List RawRecord) : List Nat :=
  encodeRecords rs ++ le16 0

/-- Sum of the record lengths `dispatch_polymodel_op` computes across a
record sequence. -/
def sumSizes (rs : List RawRecord) : Nat :=
  (rs.map (fun r => record_size r.op r.n)).sum

/-- Byte positions at which the records of a sequence start, when the
sequence itself starts at position `p`. -/
def startPositions (p : Nat) : List RawRecord → List Nat
  | [] => []
  | r :: rs => p :: startPositions (p + record_size r.op r.n) rs

/-- Modelled from the spec: `MAX_POINTS_PER_POLY` is defined in `interp.h`,
which is not among the provided sources.  The spec only states that a
vertex count of 40 exceeds it; the repository defines it as 25, and every
claim below depends only on the bound being below 40. -/
def MAX_POINTS_PER_POLY : Nat := 25

/-- `glow_num` after `exchange(glow_num, -1)` (and its initial value
`~0u`): `-1` converted to a 32-bit `unsigned`. -/
def GLOW_OFF : Nat := 4294967295

/-- `g3_draw_polygon_model_state::op_glow`: `glow_num = w(p + 2)`, an
`int16_t` converted to the 32-bit `unsigned` member `glow_num`. -/
def op_glow (v : Int) : Nat := (v % 4294967296).toNat

/-- Rasterizer calls a draw behavior can issue.  The rasterizer itself
(`g3_draw_poly`, `g3_draw_tmap`, `g3_check_and_draw_poly`) is external;
events record the call and the arguments the claims are about. -/
inductive DrawEvent where
  | drawPoly (nv : Nat) (color : Int) : DrawEvent
  | drawTmap (nv : Nat) (light : Int) : DrawEvent
  | checkAndDrawPoly (color : Int) : DrawEvent
deriving DecidableEq, Repr

/-- The DESCENT_II glow visibility test in
`g3_draw_polygon_model_state::op_flatpoly`:
`!glow_values || !(glow_num < glow_values->size()) || (*glow_values)[glow_num] != -3`. -/
def flatpoly_visible (glow_values : Option (List Int)) (glow_num : Nat) : Bool :=
  match glow_values with
  | none => true
  | some gv =>
    if h : glow_num < gv.length then decide (gv.get ⟨glow_num, h⟩ ≠ -3) else true

/-- The DESCENT_II flat-polygon color resolution in
`g3_draw_polygon_model_state::op_flatpoly`: 255 when the glow table marks
the surface full-white (`-2`), else the 15bpp-closest color of the
record's color field.  `gr_find_closest_color_15bpp` is external and
passed in as `closest15`. -/
def flatpoly_color (closest15 : Int → Int) (glow_values : Option (List Int))
    (glow_num : Nat) (c : Int) : Int :=
  match glow_values with
  | none => closest15 c
  | some gv =>
    if h : glow_num < gv.length then
      (if gv.get ⟨glow_num, h⟩ = -2 then 255 else closest15 c)
    else closest15 c

/-- `g3_draw_polygon_model_state::op_flatpoly` (StaticDraw): skip when the
vertex count exceeds `MAX_POINTS_PER_POLY`; otherwise, when the facing
test `g3_check_normal_facing(*vp(p+4), *vp(p+16))` (external; its result
is passed in as `dot`) is strictly positive and the glow table does not
hide the surface, draw the polygon with the resolved color.  `c` is the
record's color field `w(p + 28)`. -/
def op_flatpoly_draw (closest15 : Int → Int) (glow_values : Option (List Int))
    (glow_num : Nat) (nv : Nat) (dot : Int) (c : Int) : List DrawEvent :=
  if MAX_POINTS_PER_POLY < nv then []
  else if 0 < dot then
    if flatpoly_visible glow_values glow_num then
      [.drawPoly nv (flatpoly_color closest15 glow_values glow_num c)]
    else []
  else []

/-- `g3_poly_get_color_state::op_flatpoly` (ColorProbe): skip when the
vertex count exceeds `MAX_POINTS_PER_POLY`; otherwise record the resolved
color exactly when the facing test is strictly positive.  `color` is the
state's current color. -/
def op_flatpoly_probe (closest15 : Int → Int) (nv : Nat) (dot : Int)
    (c color : Int) : Int :=
  if MAX_POINTS_PER_POLY < nv then color
  else if 0 < dot then closest15 c
  else color

/-- `g3_draw_polygon_model_state::op_tmappoly` (StaticDraw): skip when the
vertex count exceeds `MAX_POINTS_PER_POLY` or the facing test is not
strictly positive; otherwise light the polygon from the glow table when
the glow cursor is in range (consuming it: `exchange(glow_num, -1)`), and
from the surface normal (`get_noglow_light`, external, passed as
`noglow`) otherwise.  Returns the issued draw calls and the new glow
cursor. -/
def op_tmappoly_draw (glow_values : Option (List Int)) (glow_num : Nat)
    (nv : Nat) (dot : Int) (noglow : Int) : List DrawEvent × Nat :=
  if MAX_POINTS_PER_POLY < nv then ([], glow_num)
  else if 0 < dot then
    match glow_values with
    | some gv =>
      if h : glow_num < gv.length then ([.drawTmap nv (gv.get ⟨glow_num, h⟩)], GLOW_OFF)
      else ([.drawTmap nv noglow], glow_num)
    | none => ([.drawTmap nv noglow], glow_num)
  else ([], glow_num)

/-- `g3_draw_morphing_model_state::op_flatpoly` (MorphDraw): no vertex
bound check and no facing cull; fan-triangulates from vertex 2 onward,
issuing `nv - 2` `g3_check_and_draw_poly` calls with the record's color
(the source's `int ntris = nv - 2` loop; `nv ≥ 2` in any well-formed
polygon record). -/
def op_flatpoly_morph (c : Int) (nv : Nat) : List DrawEvent :=
  (List.range (nv - 2)).map (fun _ => .checkAndDrawPoly c)

/-- `g3_draw_morphing_model_state::op_tmappoly` (MorphDraw): skip when the
vertex count exceeds `MAX_POINTS_PER_POLY`; otherwise always
surface-normal lit (`glow_values` is a null constant in this state). -/
def op_tmappoly_morph (nv : Nat) (noglow : Int) : List DrawEvent :=
  if MAX_POINTS_PER_POLY < nv then []
  else [.drawTmap nv noglow]

/-- `init_model_sub` together with `iterate_polymodel` and
`init_model_sub_state` (DESCENT_II build: `op_flatpoly` touches nothing,
`op_tmappoly` raises `highest_texture_num` to the texture field
`w(p + 28)`, `op_sortnorm` recurses into both branch offsets and
`op_subcall` into the sub-model offset, all through the signed 16-bit
offsets the handlers read).  Positions are byte offsets into the buffer;
a branch target before the buffer start or a read past its end is the
out-of-bounds access the C++ performs unchecked. -/
def init_model_sub (buf : List Nat) : Nat → Nat → Int → Except InterpError Int
  | 0, _, _ => .error .noFuel
  | fuel+1, p, highest_texture_num =>
    match read16 buf p with
    | none => .error .outOfBounds
    | some op =>
      if op = 0 then .ok highest_texture_num
      else if op = 1 then
        match read16 buf (p + 2) with
        | none => .error .outOfBounds
        | some n => init_model_sub buf fuel (p + record_size 1 n) highest_texture_num
      else if op = 7 then
        match read16 buf (p + 2) with
        | none => .error .outOfBounds
        | some n => init_model_sub buf fuel (p + record_size 7 n) highest_texture_num
      else if op = 2 then
        match read16 buf (p + 2) with
        | none => .error .outOfBounds
        | some n => init_model_sub buf fuel (p + record_size 2 n) highest_texture_num
      else if op = 3 then
        match read16 buf (p + 2), readS16 buf (p + 28) with
        | some n, some tex =>
          init_model_sub buf fuel (p + record_size 3 n)
            (if tex > highest_texture_num then tex else highest_texture_num)
        | _, _ => .error .outOfBounds
      else if op = 4 then
        match readS16 buf (p + 28) with
        | none => .error .outOfBounds
        | some o1 =>
          if 0 ≤ (p : Int) + o1 then
            match init_model_sub buf fuel ((p : Int) + o1).toNat highest_texture_num with
            | .error e => .error e
            | .ok hfront =>
              match readS16 buf (p + 30) with
              | none => .error .outOfBounds
              | some o2 =>
                if 0 ≤ (p : Int) + o2 then
                  match init_model_sub buf fuel ((p : Int) + o2).toNat hfront with
                  | .error e => .error e
                  | .ok hback => init_model_sub buf fuel (p + record_size 4 0) hback
                else .error .outOfBounds
          else .error .outOfBounds
      else if op = 5 then init_model_sub buf fuel (p + record_size 5 0) highest_texture_num
      else if op = 6 then
        match readS16 buf (p + 16) with
        | none => .error .outOfBounds
        | some off =>
          if 0 ≤ (p : Int) + off then
            match init_model_sub buf fuel ((p : Int) + off).toNat highest_texture_num with
            | .error e => .error e
            | .ok hsub => init_model_sub buf fuel (p + record_size 6 0) hsub
          else .error .outOfBounds
      else if op = 8 then init_model_sub buf fuel (p + record_size 8 0) highest_texture_num
      else .error .malformedModel

/-- `g3_init_polygon_model`: run the init scan from the buffer start with
`highest_texture_num = -1`. -/
def g3_init_polygon_model (buf : List Nat) (fuel : Nat) : Except InterpError Int :=
  init_model_sub buf fuel 0 (-1)

/-- A polygon-model hierarchy: the record stream of one (sub-)model level,
with the nested streams reachable from `SortByNormal` branch offsets and
`SubmodelCall` offsets.  Payload fields (`d`, `d1`, `d2`) carry the
vectors/points/UV bytes the init scan does not read. -/
inductive PolyTree where
  | eof : PolyTree
  | defpoints (n : Nat) (d : List Nat) (rest : PolyTree) : PolyTree
  | defp_start (n : Nat) (d : List Nat) (rest : PolyTree) : PolyTree
  | flatpoly (n : Nat) (d : List Nat) (rest : PolyTree) : PolyTree
  | tmappoly (n : Nat) (tex : Nat) (d1 d2 : List Nat) (rest : PolyTree) : PolyTree
  | sortnorm (d : List Nat) (front back rest : PolyTree) : PolyTree
  | rodbm (d : List Nat) (rest : PolyTree) : PolyTree
  | subcall (d1 d2 : List Nat) (sub rest : PolyTree) : PolyTree
  | glow (g : Nat) (rest : PolyTree) : PolyTree
deriving DecidableEq, Repr

/-- Size in bytes of the encoding of a hierarchy. -/
def encSize : PolyTree → Nat
  | .eof => 2
  | .defpoints n _ rest => record_size 1 n + encSize rest
  | .defp_start n _ rest => record_size 7 n + encSize rest
  | .flatpoly n _ rest => record_size 2 n + encSize rest
  | .tmappoly n _ _ _ rest => record_size 3 n + encSize rest
  | .sortnorm _ front back rest => record_size 4 0 + encSize rest + encSize front + encSize back
  | .rodbm _ rest => record_size 5 0 + encSize rest
  | .subcall _ _ sub rest => record_size 6 0 + encSize rest + encSize sub
  | .glow _ rest => record_size 8 0 + encSize rest

/-- Byte encoding of a hierarchy, following the on-disk record layout:
each record is followed by the rest of its stream, the stream ends with
its `EndOfStream` tag, and the streams of `SortByNormal` branches /
`SubmodelCall` sub-models are laid out after the end of the enclosing
stream with their (positive) relative offsets stored in the record. -/
def enc : PolyTree → List Nat
  | .eof => le16 0
  | .defpoints n d rest => le16 1 ++ le16 n ++ d.takeD (n * 12) 0 ++ enc rest
  | .defp_start n d rest => le16 7 ++ le16 n ++ d.takeD (n * 12 + 4) 0 ++ enc rest
  | .flatpoly n d rest => le16 2 ++ le16 n ++ d.takeD (record_size 2 n - 4) 0 ++ enc rest
  | .tmappoly n tex d1 d2 rest =>
      le16 3 ++ le16 n ++ d1.takeD 24 0 ++ le16 tex
        ++ d2.takeD (record_size 3 n - 30) 0 ++ enc rest
  | .sortnorm d front back rest =>
      le16 4 ++ d.takeD 26 0 ++ le16 (32 + encSize rest)
        ++ le16 (32 + encSize rest + encSize front)
        ++ enc rest ++ enc front ++ enc back
  | .rodbm d rest => le16 5 ++ d.takeD 34 0 ++ enc rest
  | .subcall d1 d2 sub rest =>
      le16 6 ++ d1.takeD 14 0 ++ le16 (20 + encSize rest) ++ d2.takeD 2 0
        ++ enc rest ++ enc sub
  | .glow g rest => le16 8 ++ le16 g ++ enc rest

/-- Well-formedness of a hierarchy: 16-bit vertex counts and glow values,
texture indices in signed-16 range, and branch offsets that fit a signed
16-bit field. -/
def wfTree : PolyTree → Bool
  | .eof => true
  | .defpoints n _ rest => decide (n < 65536) && wfTree rest
  | .defp_start n _ rest => decide (n < 65536) && wfTree rest
  | .flatpoly n _ rest => decide (n < 65536) && wfTree rest
  | .tmappoly n tex _ _ rest => decide (n < 65536) && decide (tex < 32768) && wfTree rest
  | .sortnorm _ front back rest =>
      decide (32 + encSize rest + encSize front + encSize back < 32768)
        && wfTree front && wfTree back && wfTree rest
  | .rodbm _ rest => wfTree rest
  | .subcall _ _ sub rest => decide (20 + encSize rest < 32768) && wfTree sub && wfTree rest
  | .glow g rest => decide (g < 65536) && wfTree rest

/-- Number of records in a hierarchy, counting each stream's terminal
`EndOfStream`; an upper bound on the loop iterations of the init scan. -/
def nodes : PolyTree → Nat
  | .eof => 1
  | .defpoints _ _ rest => 1 + nodes rest
  | .defp_start _ _ rest => 1 + nodes rest
  | .flatpoly _ _ rest => 1 + nodes rest
  | .tmappoly _ _ _ _ rest => 1 + nodes rest
  | .sortnorm _ front back rest => 1 + nodes front + nodes back + nodes rest
  | .rodbm _ rest => 1 + nodes rest
  | .subcall _ _ sub rest => 1 + nodes sub + nodes rest
  | .glow _ rest => 1 + nodes rest

/-- The init scan at the level of the hierarchy: thread
`highest_texture_num` through the stream, raising it at each
`TexturedPolygon` (`if (w(p+28) > highest_texture_num) ...`), descending
into `SortByNormal` front then back branches and into `SubmodelCall`
sub-models before continuing with the rest of the stream. -/
def scanTree : PolyTree → Int → Int
  | .eof, h => h
  | .defpoints _ _ rest, h => scanTree rest h
  | .defp_start _ _ rest, h => scanTree rest h
  | .flatpoly _ _ rest, h => scanTree rest h
  | .tmappoly _ tex _ _ rest, h => scanTree rest (if (tex : Int) > h then (tex : Int) else h)
  | .sortnorm _ front back rest, h => scanTree rest (scanTree back (scanTree front h))
  | .rodbm _ rest, h => scanTree rest h
  | .subcall _ _ sub rest, h => scanTree rest (scanTree sub h)
  | .glow _ rest, h => scanTree rest h

/-- The spec's example hierarchy for the init scan: `TexturedPolygon`
records with texture indices 3, 7 and 1 nested inside a `SortByNormal`
and a `SubmodelCall` branch. -/
def exampleTree : PolyTree :=
  .sortnorm []
    (.tmappoly 3 3 [] [] .eof)
    (.subcall [] [] (.tmappoly 3 7 [] [] (.tmappoly 3 1 [] [] .eof)) .eof)
    .eof

/-- The texture indices referenced by the `TexturedPolygon` records of a
hierarchy, in scan order. -/
def texList : PolyTree → List Int
  | .eof => []
  | .defpoints _ _ rest => texList rest
  | .defp_start _ _ rest => texList rest
  | .flatpoly _ _ rest => texList rest
  | .tmappoly _ tex _ _ rest => (tex : Int) :: texList rest
  | .sortnorm _ front back rest => texList front ++ texList back ++ texList rest
  | .rodbm _ rest => texList rest
  | .subcall _ _ sub rest => texList sub ++ texList rest
  | .glow _ rest => texList rest

/-- `SWAPSHORT`: exchange the two bytes of a 16-bit value. -/
def SWAPSHORT (v : Nat) : Nat := v % 256 * 256 + v / 256 % 256

/-- Native 16-bit read on the big-endian target the byte-swap pass is
compiled for (`DXX_WORDS_BIGENDIAN`): high byte first. -/
def read16BE (buf : List Nat) (p : Nat) : Option Nat :=
  match buf.get? p, buf.get? (p+1) with
  | some b0, some b1 => some (b0 * 256 + b1)
  | _, _ => none

/-- Native signed 16-bit read on the big-endian target. -/
def readS16BE (buf : List Nat) (p : Nat) : Option Int :=
  (read16BE buf p).map (fun v => if v < 32768 then (v : Int) else (v : Int) - 65536)

/-- Native 16-bit store (`*wp(p) = v`) on the big-endian target. -/
def write16BE (buf : List Nat) (p : Nat) (v : Nat) : Option (List Nat) :=
  if p + 1 < buf.length then some ((buf.set p (v / 256 % 256)).set (p+1) (v % 256))
  else none

/-- `short_swap`: exchange the two bytes of a 16-bit field in place. -/
def swap2 (buf : List Nat) (p : Nat) : Option (List Nat) :=
  match buf.get? p, buf.get? (p+1) with
  | some b0, some b1 => some ((buf.set p b1).set (p+1) b0)
  | _, _ => none

/-- `fix_swap` (via `SWAPINT`): reverse the four bytes of a 32-bit
fixed-point field in place. -/
def swap4 (buf : List Nat) (p : Nat) : Option (List Nat) :=
  match buf.get? p, buf.get? (p+1), buf.get? (p+2), buf.get? (p+3) with
  | some b0, some b1, some b2, some b3 =>
    some ((((buf.set p b3).set (p+1) b2).set (p+2) b1).set (p+3) b0)
  | _, _, _, _ => none

/-- `vms_vector_swap`: swap the three fixed-point components. -/
def swapVec (buf : List Nat) (p : Nat) : Option (List Nat) :=
  match swap4 buf p with
  | none => none
  | some b1 =>
    match swap4 b1 (p+4) with
    | none => none
    | some b2 => swap4 b2 (p+8)

/-- Swap the `u` and `v` fields of one `g3s_uvl` triplet (the `l` field is
not swapped by `op_tmappoly`). -/
def swapUvl (buf : List Nat) (p : Nat) : Option (List Nat) :=
  match swap4 buf p with
  | none => none
  | some b => swap4 b (p+4)

/-- Ascending `for (i = 0; i != n; ++i)` loop applying a field swap at
`base`, `base + step`, ... -/
def swapLoop (sw : List Nat → Nat → Option (List Nat)) (base step : Nat) :
    Nat → List Nat → Option (List Nat)
  | 0, buf => some buf
  | count+1, buf =>
    match sw buf base with
    | none => none
    | some b => swapLoop sw (base + step) step count b

/-- Bind an in-place field swap into the traversal, surfacing an
out-of-range byte access. -/
def obind (o : Option (List Nat))
    (f : List Nat → Except InterpError (List Nat × Nat)) :
    Except InterpError (List Nat × Nat) :=
  match o with
  | none => .error .outOfBounds
  | some b => f b

/-- `swap_polygon_model_data` with `swap_polygon_model_data_state` through
`iterate_polymodel` (big-endian target).  The loop reads the raw native
tag, halts on `OP_EOF`, otherwise `translate_opcode` byte-swaps the tag in
place (`*wp(p) = INTEL_SHORT(op)`) and dispatches on the swapped value;
`get_op_subcount` is `SWAPSHORT(w(p + 2))`, and each handler rewrites the
vertex-count field and swaps its record's multi-byte fields, recursing
into `SortByNormal`/`SubmodelCall` targets; the cursor advances by the
same `record_size` as every other behavior.  Returns the swapped buffer
and the halt position. -/
def swap_polygon_model_data (buf : List Nat) : Nat → Nat → Except InterpError (List Nat × Nat)
  | 0, _ => .error .noFuel
  | fuel+1, p =>
    match read16BE buf p with
    | none => .error .outOfBounds
    | some raw =>
      if raw = 0 then .ok (buf, p)
      else
        match write16BE buf p (SWAPSHORT raw) with
        | none => .error .outOfBounds
        | some buf0 =>
          if SWAPSHORT raw = 1 then
            match read16BE buf0 (p + 2) with
            | none => .error .outOfBounds
            | some m =>
              match write16BE buf0 (p + 2) (SWAPSHORT m) with
              | none => .error .outOfBounds
              | some buf1 =>
                obind (swapLoop swapVec (p + 4) 12 (SWAPSHORT m) buf1) fun buf2 =>
                  swap_polygon_model_data buf2 fuel (p + record_size 1 (SWAPSHORT m))
          else if SWAPSHORT raw = 7 then
            match read16BE buf0 (p + 2) with
            | none => .error .outOfBounds
            | some m =>
              match write16BE buf0 (p + 2) (SWAPSHORT m) with
              | none => .error .outOfBounds
              | some buf1 =>
                obind (swap2 buf1 (p + 4)) fun buf2 =>
                obind (swapLoop swapVec (p + 8) 12 (SWAPSHORT m) buf2) fun buf3 =>
                  swap_polygon_model_data buf3 fuel (p + record_size 7 (SWAPSHORT m))
          else if SWAPSHORT raw = 2 then
            match read16BE buf0 (p + 2) with
            | none => .error .outOfBounds
            | some m =>
              match write16BE buf0 (p + 2) (SWAPSHORT m) with
              | none => .error .outOfBounds
              | some buf1 =>
                obind (swapVec buf1 (p + 4)) fun buf2 =>
                obind (swapVec buf2 (p + 16)) fun buf3 =>
                obind (swap2 buf3 (p + 28)) fun buf4 =>
                obind (swapLoop swap2 (p + 30) 2 (SWAPSHORT m) buf4) fun buf5 =>
                  swap_polygon_model_data buf5 fuel (p + record_size 2 (SWAPSHORT m))
          else if SWAPSHORT raw = 3 then
            match read16BE buf0 (p + 2) with
            | none => .error .outOfBounds
            | some m =>
              match write16BE buf0 (p + 2) (SWAPSHORT m) with
              | none => .error .outOfBounds
              | some buf1 =>
                obind (swapVec buf1 (p + 4)) fun buf2 =>
                obind (swapVec buf2 (p + 16)) fun buf3 =>
                obind (swapLoop swapUvl (p + 30 + (SWAPSHORT m / 2 * 2 + 1) * 2) 12
                    (SWAPSHORT m) buf3) fun buf4 =>
                obind (swap2 buf4 (p + 28)) fun buf5 =>
                obind (swapLoop swap2 (p + 30) 2 (SWAPSHORT m) buf5) fun buf6 =>
                  swap_polygon_model_data buf6 fuel (p + record_size 3 (SWAPSHORT m))
          else if SWAPSHORT raw = 4 then
            obind (swapVec buf0 (p + 4)) fun buf1 =>
            obind (swapVec buf1 (p + 16)) fun buf2 =>
            obind (swap2 buf2 (p + 28)) fun buf3 =>
            obind (swap2 buf3 (p + 30)) fun buf4 =>
              match readS16BE buf4 (p + 28) with
              | none => .error .outOfBounds
              | some o1 =>
                if 0 ≤ (p : Int) + o1 then
                  match swap_polygon_model_data buf4 fuel ((p : Int) + o1).toNat with
                  | .error e => .error e
                  | .ok (buf5, _) =>
                    match readS16BE buf5 (p + 30) with
                    | none => .error .outOfBounds
                    | some o2 =>
                      if 0 ≤ (p : Int) + o2 then
                        match swap_polygon_model_data buf5 fuel ((p : Int) + o2).toNat with
                        | .error e => .error e
                        | .ok (buf6, _) =>
                          swap_polygon_model_data buf6 fuel (p + record_size 4 0)
                      else .error .outOfBounds
                else .error .outOfBounds
          else if SWAPSHORT raw = 5 then
            obind (swapVec buf0 (p + 20)) fun buf1 =>
            obind (swapVec buf1 (p + 4)) fun buf2 =>
            obind (swap2 buf2 (p + 2)) fun buf3 =>
            obind (swap4 buf3 (p + 16)) fun buf4 =>
            obind (swap4 buf4 (p + 32)) fun buf5 =>
              swap_polygon_model_data buf5 fuel (p + record_size 5 0)
          else if SWAPSHORT raw = 6 then
            obind (swap2 buf0 (p + 2)) fun buf1 =>
            obind (swapVec buf1 (p + 4)) fun buf2 =>
            obind (swap2 buf2 (p + 16)) fun buf3 =>
              match readS16BE buf3 (p + 16) with
              | none => .error .outOfBounds
              | some off =>
                if 0 ≤ (p : Int) + off then
                  match swap_polygon_model_data buf3 fuel ((p : Int) + off).toNat with
                  | .error e => .error e
                  | .ok (buf4, _) =>
                    swap_polygon_model_data buf4 fuel (p + record_size 6 0)
                else .error .outOfBounds
          else if SWAPSHORT raw = 8 then
            obind (swap2 buf0 (p + 2)) fun buf1 =>
              swap_polygon_model_data buf1 fuel (p + record_size 8 0)
          else .error .malformedModel

section Theorems

/-- Shifting a 16-bit read across one leading byte. -/
theorem read16_cons (a : Nat) (l : List Nat) (p : Nat) :
    read16 (a :: l) (p+1) = read16 l p := rfl

/-- Shifting a 16-bit read across a leading block. -/
theorem read16_append (pre l : List Nat) (k : Nat) :
    read16 (pre ++ l) (pre.length + k) = read16 l k := by
  induction pre with
  | nil => simp
  | cons a pre ih =>
    have : a :: pre ++ l = a :: (pre ++ l) := rfl
    rw [this, List.length_cons,
      show pre.length + 1 + k = (pre.length + k) + 1 by omega,
      read16_cons, ih]

/-- Reading back a little-endian encoded 16-bit value. -/
theorem read16_le16 (v : Nat) (hv : v < 65536) (rest : List Nat) :
    read16 (le16 v ++ rest) 0 = some v := by
  show read16 (v % 256 :: v / 256 % 256 :: rest) 0 = some v
  unfold read16
  simp only [List.get?]
  congr 1
  omega

/-- Reading a 16-bit value stored at the end of a known prefix. -/
theorem read16_at (pre : List Nat) (v : Nat) (hv : v < 65536) (rest : List Nat) :
    read16 (pre ++ le16 v ++ rest) pre.length = some v := by
  have h := read16_append pre (le16 v ++ rest) 0
  rw [Nat.add_zero] at h
  rw [List.append_assoc, h, read16_le16 v hv]

/-- Reading back a signed 16-bit value in `0..32767`. -/
theorem readS16_at (pre : List Nat) (v : Nat) (hv : v < 32768) (rest : List Nat) :
    readS16 (pre ++ le16 v ++ rest) pre.length = some (v : Int) := by
  rw [readS16, read16_at pre v (by omega) rest]
  simp [hv]

/-- A well-formed record's encoding occupies exactly the bytes
`dispatch_polymodel_op` advances past. -/
theorem length_encodeRecord (r : RawRecord) (h : wfRecord r) :
    (encodeRecord r).length = record_size r.op r.n := by
  have := h.2.2
  simp [encodeRecord, le16]
  omega

/-- Unfolding: the loop halts at an `OP_EOF` tag and returns the cursor. -/
theorem iterate_polymodel_eof (buf : List Nat) (fuel p : Nat)
    (hop : read16 buf p = some 0) :
    iterate_polymodel buf (fuel+1) p = .ok (p, []) := by
  rw [iterate_polymodel, hop]
  exact rfl

/-- Unfolding: a vertex-count-dependent opcode advances by
`record_size op n` with `n` read at `p + 2`. -/
theorem iterate_polymodel_var (buf : List Nat) (fuel p op n : Nat)
    (hop : read16 buf p = some op) (hv : op = 1 ∨ op = 7 ∨ op = 2 ∨ op = 3)
    (hn : read16 buf (p + 2) = some n) :
    iterate_polymodel buf (fuel+1) p =
      match iterate_polymodel buf fuel (p + record_size op n) with
      | .ok (q, tr) => .ok (q, p :: tr)
      | .error e => .error e := by
  have h0 : ¬ op = 0 := by rcases hv with h | h | h | h <;> omega
  rw [iterate_polymodel, hop]
  simp only [if_neg h0, if_pos hv, hn]

/-- Unfolding: a fixed-size opcode advances by its fixed record length. -/
theorem iterate_polymodel_fixed (buf : List Nat) (fuel p op : Nat)
    (hop : read16 buf p = some op) (hf : op = 4 ∨ op = 5 ∨ op = 6 ∨ op = 8) :
    iterate_polymodel buf (fuel+1) p =
      match iterate_polymodel buf fuel (p + record_size op 0) with
      | .ok (q, tr) => .ok (q, p :: tr)
      | .error e => .error e := by
  have h0 : ¬ op = 0 := by rcases hf with h | h | h | h <;> omega
  have hv : ¬ (op = 1 ∨ op = 7 ∨ op = 2 ∨ op = 3) := by
    rcases hf with h | h | h | h <;> omega
  rw [iterate_polymodel, hop]
  simp only [if_neg h0, if_neg hv, if_pos hf]

/-- Unfolding: an opcode outside the known set aborts the traversal
(`op_default` throws). -/
theorem iterate_polymodel_unknown (buf : List Nat) (fuel p op : Nat)
    (hop : read16 buf p = some op) (h9 : 8 < op) :
    iterate_polymodel buf (fuel+1) p = .error .malformedModel := by
  rw [iterate_polymodel, hop]
  simp only [if_neg (by omega : ¬ op = 0),
    if_neg (by omega : ¬ (op = 1 ∨ op = 7 ∨ op = 2 ∨ op = 3)),
    if_neg (by omega : ¬ (op = 4 ∨ op = 5 ∨ op = 6 ∨ op = 8))]

/-- Unfolding: the init scan halts at an `OP_EOF` tag. -/
theorem init_step_eof (buf : List Nat) (fuel p : Nat) (h : Int)
    (hop : read16 buf p = some 0) :
    init_model_sub buf (fuel+1) p h = .ok h := by
  rw [init_model_sub, hop]
  exact rfl

/-- Unfolding: `OP_DEFPOINTS` advances the init scan without touching the
texture maximum. -/
theorem init_step_defpoints (buf : List Nat) (fuel p n : Nat) (h : Int)
    (hop : read16 buf p = some 1) (hn : read16 buf (p + 2) = some n) :
    init_model_sub buf (fuel+1) p h = init_model_sub buf fuel (p + record_size 1 n) h := by
  rw [init_model_sub, hop]
  simp [hn]

/-- Unfolding: `OP_DEFP_START` advances the init scan. -/
theorem init_step_defp_start (buf : List Nat) (fuel p n : Nat) (h : Int)
    (hop : read16 buf p = some 7) (hn : read16 buf (p + 2) = some n) :
    init_model_sub buf (fuel+1) p h = init_model_sub buf fuel (p + record_size 7 n) h := by
  rw [init_model_sub, hop]
  simp [hn]

/-- Unfolding: `OP_FLATPOLY` advances the init scan (its DESCENT_II
handler touches nothing). -/
theorem init_step_flatpoly (buf : List Nat) (fuel p n : Nat) (h : Int)
    (hop : read16 buf p = some 2) (hn : read16 buf (p + 2) = some n) :
    init_model_sub buf (fuel+1) p h = init_model_sub buf fuel (p + record_size 2 n) h := by
  rw [init_model_sub, hop]
  simp [hn]

/-- Unfolding: `OP_TMAPPOLY` raises the running maximum to the texture
field `w(p + 28)`. -/
theorem init_step_tmappoly (buf : List Nat) (fuel p n : Nat) (tex h : Int)
    (hop : read16 buf p = some 3) (hn : read16 buf (p + 2) = some n)
    (htex : readS16 buf (p + 28) = some tex) :
    init_model_sub buf (fuel+1) p h
      = init_model_sub buf fuel (p + record_size 3 n) (if tex > h then tex else h) := by
  rw [init_model_sub, hop]
  simp [hn, htex]

/-- Unfolding: `OP_SORTNORM` recurses into the two branch offsets before
continuing past the 32-byte record. -/
theorem init_step_sortnorm (buf : List Nat) (fuel p : Nat) (o1 o2 h : Int)
    (hop : read16 buf p = some 4)
    (ho1 : readS16 buf (p + 28) = some o1) (hp1 : 0 ≤ (p : Int) + o1)
    (ho2 : readS16 buf (p + 30) = some o2) (hp2 : 0 ≤ (p : Int) + o2) :
    init_model_sub buf (fuel+1) p h
      = match init_model_sub buf fuel ((p : Int) + o1).toNat h with
        | .error e => .error e
        | .ok hfront =>
          match init_model_sub buf fuel ((p : Int) + o2).toNat hfront with
          | .error e => .error e
          | .ok hback => init_model_sub buf fuel (p + record_size 4 0) hback := by
  rw [init_model_sub, hop]
  simp [ho1, ho2, hp1, hp2]

/-- Unfolding: `OP_RODBM` advances the init scan. -/
theorem init_step_rodbm (buf : List Nat) (fuel p : Nat) (h : Int)
    (hop : read16 buf p = some 5) :
    init_model_sub buf (fuel+1) p h = init_model_sub buf fuel (p + record_size 5 0) h := by
  rw [init_model_sub, hop]
  simp

/-- Unfolding: `OP_SUBCALL` recurses into the sub-model offset before
continuing past the 20-byte record. -/
theorem init_step_subcall (buf : List Nat) (fuel p : Nat) (off h : Int)
    (hop : read16 buf p = some 6)
    (hoff : readS16 buf (p + 16) = some off) (hq : 0 ≤ (p : Int) + off) :
    init_model_sub buf (fuel+1) p h
      = match init_model_sub buf fuel ((p : Int) + off).toNat h with
        | .error e => .error e
        | .ok hsub => init_model_sub buf fuel (p + record_size 6 0) hsub := by
  rw [init_model_sub, hop]
  simp [hoff, hq]

/-- Unfolding: `OP_GLOW` advances the init scan. -/
theorem init_step_glow (buf : List Nat) (fuel p : Nat) (h : Int)
    (hop : read16 buf p = some 8) :
    init_model_sub buf (fuel+1) p h = init_model_sub buf fuel (p + record_size 8 0) h := by
  rw [init_model_sub, hop]
  simp

/-- Unfolding: an opcode outside the known set aborts the init scan. -/
theorem init_step_unknown (buf : List Nat) (fuel p op : Nat) (h : Int)
    (hop : read16 buf p = some op) (h9 : 8 < op) :
    init_model_sub buf (fuel+1) p h = .error .malformedModel := by
  rw [init_model_sub, hop]
  simp only [if_neg (by omega : ¬ op = 0), if_neg (by omega : ¬ op = 1),
    if_neg (by omega : ¬ op = 7), if_neg (by omega : ¬ op = 2),
    if_neg (by omega : ¬ op = 3), if_neg (by omega : ¬ op = 4),
    if_neg (by omega : ¬ op = 5), if_neg (by omega : ¬ op = 6),
    if_neg (by omega : ¬ op = 8)]

/-- Traversal of an encoded well-formed record sequence: starting at the
sequence start, the dispatch loop dispatches each record at its encoded
position and halts at the terminal `EndOfStream` tag, whose offset is the
sum of the computed record sizes. -/
theorem iterate_polymodel_encoded (rs : List RawRecord) :
    ∀ (pre post : List Nat) (fuel : Nat), (∀ r ∈ rs, wfRecord r) →
    rs.length < fuel →
    iterate_polymodel (pre ++ encodeRecords rs ++ le16 0 ++ post) fuel pre.length
      = .ok (pre.length + sumSizes rs, startPositions pre.length rs) := by
  induction rs with
  | nil =>
    intro pre post fuel _ hfuel
    obtain ⟨f, rfl⟩ : ∃ f, fuel = f + 1 := ⟨fuel - 1, by omega⟩
    have hbuf : pre ++ encodeRecords [] ++ le16 0 ++ post = pre ++ le16 0 ++ post := by
      simp [encodeRecords]
    rw [hbuf, iterate_polymodel_eof _ f _ (read16_at pre 0 (by omega) post)]
    simp [sumSizes, startPositions]
  | cons r rs ih =>
    intro pre post fuel hwf hfuel
    obtain ⟨f, rfl⟩ : ∃ f, fuel = f + 1 := ⟨fuel - 1, by omega⟩
    have hwfr : wfRecord r := hwf r (by simp)
    have hop8 : r.op = 1 ∨ r.op = 7 ∨ r.op = 2 ∨ r.op = 3 ∨ r.op = 4 ∨ r.op = 5
        ∨ r.op = 6 ∨ r.op = 8 := hwfr.1
    have hoplt : r.op < 65536 := by omega
    have hbuf : pre ++ encodeRecords (r :: rs) ++ le16 0 ++ post
        = pre ++ le16 r.op ++ (le16 r.n ++ (r.payload ++ (encodeRecords rs ++ le16 0 ++ post))) := by
      simp [encodeRecords, encodeRecord]
    have hoprd : read16 (pre ++ encodeRecords (r :: rs) ++ le16 0 ++ post) pre.length
        = some r.op := by
      rw [hbuf]; exact read16_at pre r.op hoplt _
    have hlen2 : pre.length + 2 = (pre ++ le16 r.op).length := by simp [le16]
    have hnrd : read16 (pre ++ encodeRecords (r :: rs) ++ le16 0 ++ post) (pre.length + 2)
        = some r.n := by
      rw [hbuf, hlen2, show pre ++ le16 r.op ++ (le16 r.n ++ (r.payload ++ (encodeRecords rs ++ le16 0 ++ post))) = (pre ++ le16 r.op) ++ le16 r.n ++ (r.payload ++ (encodeRecords rs ++ le16 0 ++ post)) by simp]
      exact read16_at (pre ++ le16 r.op) r.n hwfr.2.1 _
    have hpre2 : pre.length + record_size r.op r.n = (pre ++ encodeRecord r).length := by
      rw [List.length_append, length_encodeRecord r hwfr]
    have hbuf2 : pre ++ encodeRecords (r :: rs) ++ le16 0 ++ post
        = (pre ++ encodeRecord r) ++ encodeRecords rs ++ le16 0 ++ post := by
      simp [encodeRecords]
    have hih : iterate_polymodel (pre ++ encodeRecords (r :: rs) ++ le16 0 ++ post) f
        ((pre ++ encodeRecord r).length)
        = .ok ((pre ++ encodeRecord r).length + sumSizes rs,
            startPositions ((pre ++ encodeRecord r).length) rs) := by
      rw [hbuf2]
      exact ih (pre ++ encodeRecord r) post f (fun x hx => hwf x (by simp [hx])) (by simp at hfuel ⊢; omega)
    have hsum : (pre ++ encodeRecord r).length + sumSizes rs
        = pre.length + sumSizes (r :: rs) := by
      rw [List.length_append, length_encodeRecord r hwfr]
      simp [sumSizes]
      omega
    have hstart : startPositions pre.length (r :: rs)
        = pre.length :: startPositions ((pre ++ encodeRecord r).length) rs := by
      rw [startPositions, hpre2]
    have hvar : (r.op = 1 ∨ r.op = 7 ∨ r.op = 2 ∨ r.op = 3) →
        iterate_polymodel (pre ++ encodeRecords (r :: rs) ++ le16 0 ++ post) (f + 1) pre.length
          = .ok (pre.length + sumSizes (r :: rs), startPositions pre.length (r :: rs)) := by
      intro hv
      rw [iterate_polymodel_var _ f _ r.op r.n hoprd hv hnrd, hpre2, hih, hsum, hstart]
    have hfix : (r.op = 4 ∨ r.op = 5 ∨ r.op = 6 ∨ r.op = 8) →
        iterate_polymodel (pre ++ encodeRecords (r :: rs) ++ le16 0 ++ post) (f + 1) pre.length
          = .ok (pre.length + sumSizes (r :: rs), startPositions pre.length (r :: rs)) := by
      intro hfx
      have hrs0 : record_size r.op 0 = record_size r.op r.n := by
        rcases hfx with h | h | h | h <;> rw [h] <;> rfl
      rw [iterate_polymodel_fixed _ f _ r.op hoprd hfx, hrs0, hpre2, hih, hsum, hstart]
    rcases hop8 with h | h | h | h | h | h | h | h
    · exact hvar (by omega)
    · exact hvar (by omega)
    · exact hvar (by omega)
    · exact hvar (by omega)
    · exact hfix (by omega)
    · exact hfix (by omega)
    · exact hfix (by omega)
    · exact hfix (by omega)

/-- The encoding of a well-formed record sequence occupies exactly the sum
of the computed record sizes. -/
theorem length_encodeRecords (rs : List RawRecord) (hwf : ∀ r ∈ rs, wfRecord r) :
    (encodeRecords rs).length = sumSizes rs := by
  induction rs with
  | nil => rfl
  | cons r rs ih =>
    have h1 : encodeRecords (r :: rs) = encodeRecord r ++ encodeRecords rs := by
      simp [encodeRecords]
    rw [h1, List.length_append, length_encodeRecord r (hwf r (by simp)),
      ih (fun x hx => hwf x (by simp [hx]))]
    simp [sumSizes]

/-- Claim C2: for every well-formed buffer (known-opcode records followed
by `EndOfStream`, with arbitrary trailing bytes), the dispatch loop halts
with the cursor exactly at the terminal tag, that position equals the sum
of the computed record lengths (no gaps, no overlaps), and the byte pair
at that position is indeed the `EndOfStream` tag. -/
theorem C2_theorem (rs : List RawRecord) (post : List Nat) (fuel : Nat)
    (hwf : ∀ r ∈ rs, wfRecord r) (hfuel : rs.length < fuel) :
    iterate_polymodel (encodeModel rs ++ post) fuel 0
      = .ok (sumSizes rs, startPositions 0 rs)
    ∧ read16 (encodeModel rs ++ post) (sumSizes rs) = some 0 := by
  have hbuf : encodeModel rs ++ post = [] ++ encodeRecords rs ++ le16 0 ++ post := by
    simp [encodeModel]
  constructor
  · have h := iterate_polymodel_encoded rs [] post fuel hwf hfuel
    rw [hbuf]
    simpa using h
  · rw [hbuf, ← length_encodeRecords rs hwf]
    simpa using read16_at (encodeRecords rs) 0 (by omega) post

/-- Claim C2 witness: a buffer of one `Glow` record; the loop halts at
offset 4, the sum of the record lengths, where the `EndOfStream` tag
sits. -/
theorem C2_witness :
    iterate_polymodel (encodeModel [RawRecord.mk 8 5 []] ++ []) 2 0 = .ok (4, [0])
    ∧ read16 (encodeModel [RawRecord.mk 8 5 []] ++ []) 4 = some 0 :=
  C2_theorem [RawRecord.mk 8 5 []] [] 2 (by decide) (by decide)

/-- Claim C1, counterexample: for a `FlatPolygon` (opcode 2) with 3
vertices the dispatch loop advances by `30 + ((3 & ~1) + 1) * 2 = 36`
bytes, while the table stated in the claim gives
`30 + (round_up_odd 3 + 1) * 2 = 38`. -/
theorem C1_counterexample : record_size 2 3 ≠ claimed_length 2 3 := by decide

/-- Claim C1 (amended): for every opcode of the 9 known variants and every
vertex count, the byte length by which `dispatch_polymodel_op` advances
equals the closed-form table with the polygon index table occupying
`round_up_odd n` (not `round_up_odd n + 1`) 16-bit slots. -/
theorem C1_theorem (op n : Nat) (hop : op ≤ 8) :
    record_size op n = amended_length op n := by
  have hparity : n / 2 * 2 + 1 = round_up_odd n := by
    unfold round_up_odd
    rcases Nat.mod_two_eq_zero_or_one n with h | h <;> simp [h] <;> omega
  interval_cases op <;>
    simp [record_size, amended_length, ← hparity] <;> ring

/-- Claim C1 witness: the amended table evaluated at `OP_FLATPOLY` with 4
vertices. -/
theorem C1_witness : 2 ≤ 8 ∧ record_size 2 4 = amended_length 2 4 :=
  ⟨by decide, C1_theorem 2 4 (by decide)⟩

/-- Claim C3: on reading an opcode value outside the 9 known variants
(any value above 8), the dispatch loop fails with the fatal
`MalformedModel` error — for the cursor traversal shared by all behaviors
and for the init scan alike — without guessing a length and without
recovery. -/
theorem C3_theorem (buf : List Nat) (p op fuel : Nat) (h : Int)
    (hop : read16 buf p = some op) (h9 : 8 < op) :
    iterate_polymodel buf (fuel+1) p = .error .malformedModel
    ∧ init_model_sub buf (fuel+1) p h = .error .malformedModel :=
  ⟨iterate_polymodel_unknown buf fuel p op hop h9,
   init_step_unknown buf fuel p op h hop h9⟩

/-- Claim C3 witness: a buffer whose first tag is the unknown opcode 9. -/
theorem C3_witness :
    iterate_polymodel [9, 0] 1 0 = .error .malformedModel
    ∧ init_model_sub [9, 0] 1 0 (-1) = .error .malformedModel :=
  C3_theorem [9, 0] 0 9 0 (-1) (by decide) (by decide)

/-- Claim C4, counterexample: MorphDraw's `op_flatpoly` has no vertex
bound check: a `FlatPolygon` with 40 vertices (above
`MAX_POINTS_PER_POLY`) is not skipped — it issues 38
`g3_check_and_draw_poly` calls, so "each draw behavior (StaticDraw and
MorphDraw) silently skips it" is false for MorphDraw. -/
theorem C4_counterexample :
    MAX_POINTS_PER_POLY < 40
    ∧ op_flatpoly_morph 5 40 ≠ []
    ∧ (op_flatpoly_morph 5 40).length = 38 := by decide

/-- Claim C4 (amended): a `FlatPolygon` (or `TexturedPolygon`) whose
vertex count exceeds `MAX_POINTS_PER_POLY` is silently skipped — no draw
call, no error — by StaticDraw (both handlers) and by MorphDraw's
`TexturedPolygon` handler, and the dispatch loop still advances the
cursor by the fully computed record length; MorphDraw's `FlatPolygon`
handler performs no such check. -/
theorem C4_theorem (closest15 : Int → Int) (gv : Option (List Int)) (gn nv : Nat)
    (dot c noglow : Int) (buf : List Nat) (p fuel : Nat)
    (hnv : MAX_POINTS_PER_POLY < nv) :
    op_flatpoly_draw closest15 gv gn nv dot c = []
    ∧ (op_tmappoly_draw gv gn nv dot noglow).1 = []
    ∧ op_tmappoly_morph nv noglow = []
    ∧ (read16 buf p = some 2 → read16 buf (p + 2) = some nv →
        iterate_polymodel buf (fuel+1) p
          = match iterate_polymodel buf fuel (p + record_size 2 nv) with
            | .ok (q, tr) => .ok (q, p :: tr)
            | .error e => .error e) := by
  refine ⟨?_, ?_, ?_, ?_⟩
  · unfold op_flatpoly_draw; rw [if_pos hnv]
  · unfold op_tmappoly_draw; rw [if_pos hnv]
  · unfold op_tmappoly_morph; rw [if_pos hnv]
  · intro h2 hn
    exact iterate_polymodel_var buf fuel p 2 nv h2 (by omega) hn

/-- Claim C4 witness: StaticDraw issues no draw call for a 40-vertex
`FlatPolygon`, and the loop still advances by
`record_size 2 40 = 112` bytes to the terminal tag. -/
theorem C4_witness :
    MAX_POINTS_PER_POLY < 40
    ∧ op_flatpoly_draw (fun x => x) none 0 40 1 5 = []
    ∧ iterate_polymodel ([2, 0, 40, 0] ++ List.replicate 108 0 ++ [0, 0]) 2 0
        = .ok (112, [0]) := by
  refine ⟨by decide, (C4_theorem (fun x => x) none 0 40 1 5 2
    ([2, 0, 40, 0] ++ List.replicate 108 0 ++ [0, 0]) 0 1 (by decide)).1, ?_⟩
  have h := (C4_theorem (fun x => x) none 0 40 1 5 2
    ([2, 0, 40, 0] ++ List.replicate 108 0 ++ [0, 0]) 0 1 (by decide)).2.2.2
    (by decide) (by decide)
  rw [h]
  decide

/-- Claim C7: in StaticDraw, when the glow cursor set by a `Glow` record
is at or past the end of the glow table, a subsequent `TexturedPolygon`
takes the surface-normal (`get_noglow_light`) path, and for every glow
cursor value the light used is either the no-glow light or an element of
the glow table — the table is never indexed out of bounds. -/
theorem C7_theorem (gv : List Int) (v noglow : Int) (nv : Nat) (dot : Int)
    (hidx : gv.length ≤ op_glow v) (hnv : nv ≤ MAX_POINTS_PER_POLY) (hdot : 0 < dot) :
    op_tmappoly_draw (some gv) (op_glow v) nv dot noglow
      = ([.drawTmap nv noglow], op_glow v)
    ∧ ∀ gn : Nat, ∀ e ∈ (op_tmappoly_draw (some gv) gn nv dot noglow).1,
        ∃ l, e = .drawTmap nv l ∧ (l = noglow ∨ l ∈ gv) := by
  constructor
  · unfold op_tmappoly_draw
    rw [if_neg (by omega : ¬ MAX_POINTS_PER_POLY < nv), if_pos hdot]
    dsimp only
    rw [dif_neg (by omega : ¬ op_glow v < gv.length)]
  · intro gn e he
    unfold op_tmappoly_draw at he
    rw [if_neg (by omega : ¬ MAX_POINTS_PER_POLY < nv), if_pos hdot] at he
    dsimp only at he
    by_cases hgn : gn < gv.length
    · rw [dif_pos hgn] at he
      simp only [List.mem_singleton] at he
      exact ⟨gv.get ⟨gn, hgn⟩, he, Or.inr (gv.get_mem _ _)⟩
    · rw [dif_neg hgn] at he
      simp only [List.mem_singleton] at he
      exact ⟨noglow, he, Or.inl rfl⟩

/-- Claim C7 witness: a glow table of length 1 with the glow cursor set to
5 by a `Glow` record; the textured polygon is lit by the no-glow light
42. -/
theorem C7_witness :
    [(7 : Int)].length ≤ op_glow 5 ∧ 3 ≤ MAX_POINTS_PER_POLY ∧ (0 : Int) < 1
    ∧ op_tmappoly_draw (some [(7 : Int)]) (op_glow 5) 3 1 42
        = ([.drawTmap 3 42], op_glow 5) :=
  ⟨by decide, by decide, by decide,
   (C7_theorem [(7 : Int)] 5 42 3 1 (by decide) (by decide) (by decide)).1⟩

/-- Claim C9, counterexample: at vertex count 40 (above
`MAX_POINTS_PER_POLY`) with facing dot product 1 > 0, neither ColorProbe
(the probed color stays 0 instead of becoming the resolved 5) nor
StaticDraw acts, refuting "both act on the polygon exactly when the dot
product is strictly positive"; the contrast at vertex count 3 shows the
probe does act there. -/
theorem C9_counterexample :
    (0 : Int) < 1
    ∧ op_flatpoly_probe (fun x => x) 40 1 5 0 = 0
    ∧ op_flatpoly_draw (fun x => x) none 0 40 1 5 = []
    ∧ op_flatpoly_probe (fun x => x) 3 1 5 0 = 5 := by decide

/-- Claim C9 (amended): ColorProbe and StaticDraw agree on the
front-facing decision of a `FlatPolygon`: whenever the facing dot product
is ≤ 0 both skip; and when the vertex count is within
`MAX_POINTS_PER_POLY` and the dot product is strictly positive, the probe
records the resolved color and StaticDraw draws — provided, for
StaticDraw in the DESCENT_II build, that the glow table does not mark the
surface hidden. -/
theorem C9_theorem (closest15 : Int → Int) (gv : Option (List Int)) (gn nv : Nat)
    (dot c color : Int) :
    (dot ≤ 0 → op_flatpoly_probe closest15 nv dot c color = color
      ∧ op_flatpoly_draw closest15 gv gn nv dot c = [])
    ∧ (nv ≤ MAX_POINTS_PER_POLY → 0 < dot →
        op_flatpoly_probe closest15 nv dot c color = closest15 c
        ∧ (flatpoly_visible gv gn = true →
            op_flatpoly_draw closest15 gv gn nv dot c
              = [.drawPoly nv (flatpoly_color closest15 gv gn c)])) := by
  constructor
  · intro hdot
    constructor
    · unfold op_flatpoly_probe
      by_cases h : MAX_POINTS_PER_POLY < nv
      · rw [if_pos h]
      · rw [if_neg h, if_neg (by omega)]
    · unfold op_flatpoly_draw
      by_cases h : MAX_POINTS_PER_POLY < nv
      · rw [if_pos h]
      · rw [if_neg h, if_neg (by omega)]
  · intro hnv hdot
    constructor
    · unfold op_flatpoly_probe
      rw [if_neg (by omega), if_pos hdot]
    · intro hvis
      unfold op_flatpoly_draw
      rw [if_neg (by omega), if_pos hdot, if_pos hvis]

/-- Claim C9 witness: both behaviors skip a back-facing polygon
(dot = -1). -/
theorem C9_witness :
    op_flatpoly_probe (fun x => x) 3 (-1) 5 0 = 0
    ∧ op_flatpoly_draw (fun x => x) none 0 3 (-1) 5 = [] :=
  (C9_theorem (fun x => x) none 0 3 (-1) 5 0).1 (by decide)

/-- A 16-bit read entirely past the end of the buffer yields nothing. -/
theorem read16_oob (buf : List Nat) (q : Nat) (h : buf.length ≤ q + 1) :
    read16 buf q = none := by
  unfold read16
  rw [List.get?_eq_none.mpr (by omega : buf.length ≤ q + 1)]
  cases buf.get? q <;> rfl

/-- Claim C5, counterexample: a `SubmodelCall` whose branch offset (1000)
resolves outside the 22-byte buffer makes the init-scan traversal attempt
the out-of-bounds access — the embedding's `outOfBounds` outcome, standing
for the unchecked pointer read in the C++ — and not the claimed
`MalformedModel` error. -/
theorem C5_counterexample :
    init_model_sub [6, 0, 0, 0, 0, 0, 0, 0, 0, 0, 0, 0, 0, 0, 0, 0, 232, 3, 0, 0, 0, 0]
        10 0 (-1) = .error .outOfBounds
    ∧ (Except.error InterpError.outOfBounds : Except InterpError Int)
        ≠ .error .malformedModel := by decide

/-- Claim C5 (amended): the traversal follows a `SubmodelCall` branch
offset without any bounds check: when the target position lies outside
the buffer (before its start or past its end), the traversal performs the
out-of-bounds access (undefined behavior in the original pointer
arithmetic, `outOfBounds` in this embedding) instead of raising
`MalformedModel`; the bounds-checked `MalformedModel` failure is the
rewrite's goal stated by the spec, not a property of this code. -/
theorem C5_theorem (buf : List Nat) (p fuel : Nat) (h off : Int)
    (hop : read16 buf p = some 6)
    (hoff : readS16 buf (p + 16) = some off)
    (hoob : (p : Int) + off < 0 ∨ buf.length ≤ ((p : Int) + off).toNat + 1) :
    init_model_sub buf (fuel + 2) p h = .error .outOfBounds := by
  by_cases hq : (0 : Int) ≤ (p : Int) + off
  · have hlen : buf.length ≤ ((p : Int) + off).toNat + 1 := by
      rcases hoob with hneg | hlen
      · omega
      · exact hlen
    rw [show fuel + 2 = (fuel + 1) + 1 from rfl,
      init_step_subcall buf (fuel + 1) p off h hop hoff hq,
      init_model_sub, read16_oob buf _ hlen]
  · rw [show fuel + 2 = (fuel + 1) + 1 from rfl, init_model_sub, hop]
    simp [hoff, hq]

/-- Claim C5 witness: the amended behavior at the concrete 22-byte buffer
with branch offset 1000. -/
theorem C5_witness :
    init_model_sub [6, 0, 0, 0, 0, 0, 0, 0, 0, 0, 0, 0, 0, 0, 0, 0, 232, 3, 0, 0, 0, 0]
        3 0 (-1) = .error .outOfBounds :=
  C5_theorem [6, 0, 0, 0, 0, 0, 0, 0, 0, 0, 0, 0, 0, 0, 0, 0, 232, 3, 0, 0, 0, 0]
    0 1 (-1) 1000 (by decide) (by decide) (Or.inr (by decide))

/-- The two bytes of a 16-bit little-endian encoding. -/
theorem le16_length (v : Nat) : (le16 v).length = 2 := rfl

/-- The encoding of a hierarchy occupies `encSize` bytes. -/
theorem length_enc (t : PolyTree) : (enc t).length = encSize t := by
  induction t with
  | eof => rfl
  | defpoints n d rest ih =>
    simp only [enc, encSize, List.length_append, le16_length, List.takeD_length, ih]
    rw [show record_size 1 n = n * 12 + 4 from rfl] <;> omega
  | defp_start n d rest ih =>
    simp only [enc, encSize, List.length_append, le16_length, List.takeD_length, ih]
    rw [show record_size 7 n = n * 12 + 8 from rfl] <;> omega
  | flatpoly n d rest ih =>
    simp only [enc, encSize, List.length_append, le16_length, List.takeD_length, ih]
    rw [show record_size 2 n = 30 + (n / 2 * 2 + 1) * 2 from rfl] <;> omega
  | tmappoly n tex d1 d2 rest ih =>
    simp only [enc, encSize, List.length_append, le16_length, List.takeD_length, ih]
    rw [show record_size 3 n = 30 + (n / 2 * 2 + 1) * 2 + n * 12 from rfl] <;> omega
  | sortnorm d front back rest ihf ihb ihr =>
    simp only [enc, encSize, List.length_append, le16_length, List.takeD_length,
      ihf, ihb, ihr]
    rw [show record_size 4 0 = 32 from rfl] <;> omega
  | rodbm d rest ih =>
    simp only [enc, encSize, List.length_append, le16_length, List.takeD_length, ih]
    rw [show record_size 5 0 = 36 from rfl] <;> omega
  | subcall d1 d2 sub rest ihs ihr =>
    simp only [enc, encSize, List.length_append, le16_length, List.takeD_length, ihs, ihr]
    rw [show record_size 6 0 = 20 from rfl] <;> omega
  | glow g rest ih =>
    simp only [enc, encSize, List.length_append, le16_length, ih]
    rw [show record_size 8 0 = 4 from rfl] <;> omega

/-- The init scan's update `if (w(p+28) > highest) highest = w(p+28)` is
the maximum. -/
theorem if_gt_eq_max (b a : Int) : (if a > b then a else b) = max b a := by
  rcases le_or_lt a b with hc | hc
  · rw [if_neg (by omega), max_eq_left hc]
  · rw [if_pos hc, max_eq_right hc.le]

/-- Threading the init scan through a hierarchy folds the maximum over the
referenced texture indices. -/
theorem scanTree_foldl (t : PolyTree) : ∀ h : Int,
    scanTree t h = List.foldl max h (texList t) := by
  induction t <;> intro h <;>
    simp only [scanTree, texList, List.foldl_append, List.foldl_cons, List.foldl_nil,
      if_gt_eq_max, *]

/-- Correctness of the init scan on an encoded hierarchy: started at the
encoding of `t` (at any position inside a larger buffer), with enough
fuel, it returns exactly the `scanTree` fold of the running maximum. -/
theorem init_model_sub_enc (t : PolyTree) : ∀ (pre post : List Nat) (h : Int) (fuel : Nat),
    wfTree t = true → nodes t ≤ fuel →
    init_model_sub (pre ++ enc t ++ post) fuel pre.length h = .ok (scanTree t h) := by
  induction t with
  | eof =>
    intro pre post h fuel _ hfuel
    simp only [nodes] at hfuel
    obtain ⟨fl, rfl⟩ : ∃ fl, fuel = fl + 1 := ⟨fuel - 1, by omega⟩
    have hop : read16 (pre ++ enc .eof ++ post) pre.length = some 0 := by
      rw [show pre ++ enc PolyTree.eof ++ post = pre ++ le16 0 ++ post by
        simp only [enc]]
      exact read16_at pre 0 (by omega) post
    rw [init_step_eof _ fl _ h hop]
    rfl
  | defpoints n d rest ih =>
    intro pre post h fuel hwf hfuel
    simp only [wfTree, Bool.and_eq_true, decide_eq_true_eq] at hwf
    obtain ⟨hn65, hwrest⟩ := hwf
    simp only [nodes] at hfuel
    obtain ⟨fl, rfl⟩ : ∃ fl, fuel = fl + 1 := ⟨fuel - 1, by omega⟩
    have hop : read16 (pre ++ enc (.defpoints n d rest) ++ post) pre.length = some 1 := by
      rw [show pre ++ enc (PolyTree.defpoints n d rest) ++ post
        = pre ++ le16 1 ++ (le16 n ++ (d.takeD (n * 12) 0 ++ (enc rest ++ post))) by
          simp only [enc, List.append_assoc]]
      exact read16_at pre 1 (by omega) _
    have hnrd : read16 (pre ++ enc (.defpoints n d rest) ++ post) (pre.length + 2)
        = some n := by
      rw [show pre ++ enc (PolyTree.defpoints n d rest) ++ post
        = (pre ++ le16 1) ++ le16 n ++ (d.takeD (n * 12) 0 ++ (enc rest ++ post)) by
          simp only [enc, List.append_assoc],
        show pre.length + 2 = (pre ++ le16 1).length by
          rw [List.length_append, le16_length]]
      exact read16_at _ n (by omega) _
    rw [init_step_defpoints _ fl _ n h hop hnrd]
    rw [show pre.length + record_size 1 n
        = (pre ++ le16 1 ++ le16 n ++ d.takeD (n * 12) 0).length by
        simp only [List.length_append, le16_length, List.takeD_length]
        rw [show record_size 1 n = n * 12 + 4 from rfl] <;> omega,
      show pre ++ enc (PolyTree.defpoints n d rest) ++ post
        = (pre ++ le16 1 ++ le16 n ++ d.takeD (n * 12) 0) ++ enc rest ++ post by
          simp only [enc, List.append_assoc]]
    exact ih _ post h fl hwrest (by omega)
  | defp_start n d rest ih =>
    intro pre post h fuel hwf hfuel
    simp only [wfTree, Bool.and_eq_true, decide_eq_true_eq] at hwf
    obtain ⟨hn65, hwrest⟩ := hwf
    simp only [nodes] at hfuel
    obtain ⟨fl, rfl⟩ : ∃ fl, fuel = fl + 1 := ⟨fuel - 1, by omega⟩
    have hop : read16 (pre ++ enc (.defp_start n d rest) ++ post) pre.length = some 7 := by
      rw [show pre ++ enc (PolyTree.defp_start n d rest) ++ post
        = pre ++ le16 7 ++ (le16 n ++ (d.takeD (n * 12 + 4) 0 ++ (enc rest ++ post))) by
          simp only [enc, List.append_assoc]]
      exact read16_at pre 7 (by omega) _
    have hnrd : read16 (pre ++ enc (.defp_start n d rest) ++ post) (pre.length + 2)
        = some n := by
      rw [show pre ++ enc (PolyTree.defp_start n d rest) ++ post
        = (pre ++ le16 7) ++ le16 n ++ (d.takeD (n * 12 + 4) 0 ++ (enc rest ++ post)) by
          simp only [enc, List.append_assoc],
        show pre.length + 2 = (pre ++ le16 7).length by
          rw [List.length_append, le16_length]]
      exact read16_at _ n (by omega) _
    rw [init_step_defp_start _ fl _ n h hop hnrd]
    rw [show pre.length + record_size 7 n
        = (pre ++ le16 7 ++ le16 n ++ d.takeD (n * 12 + 4) 0).length by
        simp only [List.length_append, le16_length, List.takeD_length]
        rw [show record_size 7 n = n * 12 + 8 from rfl] <;> omega,
      show pre ++ enc (PolyTree.defp_start n d rest) ++ post
        = (pre ++ le16 7 ++ le16 n ++ d.takeD (n * 12 + 4) 0) ++ enc rest ++ post by
          simp only [enc, List.append_assoc]]
    exact ih _ post h fl hwrest (by omega)
  | flatpoly n d rest ih =>
    intro pre post h fuel hwf hfuel
    simp only [wfTree, Bool.and_eq_true, decide_eq_true_eq] at hwf
    obtain ⟨hn65, hwrest⟩ := hwf
    simp only [nodes] at hfuel
    obtain ⟨fl, rfl⟩ : ∃ fl, fuel = fl + 1 := ⟨fuel - 1, by omega⟩
    have hop : read16 (pre ++ enc (.flatpoly n d rest) ++ post) pre.length = some 2 := by
      rw [show pre ++ enc (PolyTree.flatpoly n d rest) ++ post
        = pre ++ le16 2 ++ (le16 n ++ (d.takeD (record_size 2 n - 4) 0 ++ (enc rest ++ post))) by
          simp only [enc, List.append_assoc]]
      exact read16_at pre 2 (by omega) _
    have hnrd : read16 (pre ++ enc (.flatpoly n d rest) ++ post) (pre.length + 2)
        = some n := by
      rw [show pre ++ enc (PolyTree.flatpoly n d rest) ++ post
        = (pre ++ le16 2) ++ le16 n ++ (d.takeD (record_size 2 n - 4) 0 ++ (enc rest ++ post)) by
          simp only [enc, List.append_assoc],
        show pre.length + 2 = (pre ++ le16 2).length by
          rw [List.length_append, le16_length]]
      exact read16_at _ n (by omega) _
    rw [init_step_flatpoly _ fl _ n h hop hnrd]
    rw [show pre.length + record_size 2 n
        = (pre ++ le16 2 ++ le16 n ++ d.takeD (record_size 2 n - 4) 0).length by
        simp only [List.length_append, le16_length, List.takeD_length]
        rw [show record_size 2 n = 30 + (n / 2 * 2 + 1) * 2 from rfl] <;> omega,
      show pre ++ enc (PolyTree.flatpoly n d rest) ++ post
        = (pre ++ le16 2 ++ le16 n ++ d.takeD (record_size 2 n - 4) 0) ++ enc rest ++ post by
          simp only [enc, List.append_assoc]]
    exact ih _ post h fl hwrest (by omega)
  | tmappoly n tex d1 d2 rest ih =>
    intro pre post h fuel hwf hfuel
    simp only [wfTree, Bool.and_eq_true, decide_eq_true_eq] at hwf
    obtain ⟨⟨hn65, htex⟩, hwrest⟩ := hwf
    simp only [nodes] at hfuel
    obtain ⟨fl, rfl⟩ : ∃ fl, fuel = fl + 1 := ⟨fuel - 1, by omega⟩
    have hop : read16 (pre ++ enc (.tmappoly n tex d1 d2 rest) ++ post) pre.length
        = some 3 := by
      rw [show pre ++ enc (PolyTree.tmappoly n tex d1 d2 rest) ++ post
        = pre ++ le16 3 ++ (le16 n ++ (d1.takeD 24 0 ++ (le16 tex
            ++ (d2.takeD (record_size 3 n - 30) 0 ++ (enc rest ++ post))))) by
          simp only [enc, List.append_assoc]]
      exact read16_at pre 3 (by omega) _
    have hnrd : read16 (pre ++ enc (.tmappoly n tex d1 d2 rest) ++ post) (pre.length + 2)
        = some n := by
      rw [show pre ++ enc (PolyTree.tmappoly n tex d1 d2 rest) ++ post
        = (pre ++ le16 3) ++ le16 n ++ (d1.takeD 24 0 ++ (le16 tex
            ++ (d2.takeD (record_size 3 n - 30) 0 ++ (enc rest ++ post)))) by
          simp only [enc, List.append_assoc],
        show pre.length + 2 = (pre ++ le16 3).length by
          rw [List.length_append, le16_length]]
      exact read16_at _ n (by omega) _
    have htexrd : readS16 (pre ++ enc (.tmappoly n tex d1 d2 rest) ++ post) (pre.length + 28)
        = some (tex : Int) := by
      rw [show pre ++ enc (PolyTree.tmappoly n tex d1 d2 rest) ++ post
        = (pre ++ le16 3 ++ le16 n ++ d1.takeD 24 0) ++ le16 tex
            ++ (d2.takeD (record_size 3 n - 30) 0 ++ (enc rest ++ post)) by
          simp only [enc, List.append_assoc],
        show pre.length + 28 = (pre ++ le16 3 ++ le16 n ++ d1.takeD 24 0).length by
          simp only [List.length_append, le16_length, List.takeD_length] <;> omega]
      exact readS16_at _ tex htex _
    rw [init_step_tmappoly _ fl _ n (tex : Int) h hop hnrd htexrd]
    rw [show pre.length + record_size 3 n
        = (pre ++ le16 3 ++ le16 n ++ d1.takeD 24 0 ++ le16 tex
            ++ d2.takeD (record_size 3 n - 30) 0).length by
        simp only [List.length_append, le16_length, List.takeD_length]
        rw [show record_size 3 n = 30 + (n / 2 * 2 + 1) * 2 + n * 12 from rfl] <;> omega,
      show pre ++ enc (PolyTree.tmappoly n tex d1 d2 rest) ++ post
        = (pre ++ le16 3 ++ le16 n ++ d1.takeD 24 0 ++ le16 tex
            ++ d2.takeD (record_size 3 n - 30) 0) ++ enc rest ++ post by
          simp only [enc, List.append_assoc]]
    exact ih _ post (if (tex : Int) > h then (tex : Int) else h) fl hwrest (by omega)
  | sortnorm d front back rest ihf ihb ihr =>
    intro pre post h fuel hwf hfuel
    simp only [wfTree, Bool.and_eq_true, decide_eq_true_eq] at hwf
    obtain ⟨⟨⟨hoff, hwf_f⟩, hwf_b⟩, hwf_r⟩ := hwf
    simp only [nodes] at hfuel
    obtain ⟨fl, rfl⟩ : ∃ fl, fuel = fl + 1 := ⟨fuel - 1, by omega⟩
    have hop : read16 (pre ++ enc (.sortnorm d front back rest) ++ post) pre.length
        = some 4 := by
      rw [show pre ++ enc (PolyTree.sortnorm d front back rest) ++ post
        = pre ++ le16 4 ++ (d.takeD 26 0 ++ (le16 (32 + encSize rest)
            ++ (le16 (32 + encSize rest + encSize front)
            ++ (enc rest ++ (enc front ++ (enc back ++ post)))))) by
          simp only [enc, List.append_assoc]]
      exact read16_at pre 4 (by omega) _
    have ho1 : readS16 (pre ++ enc (.sortnorm d front back rest) ++ post) (pre.length + 28)
        = some ((32 + encSize rest : Nat) : Int) := by
      rw [show pre ++ enc (PolyTree.sortnorm d front back rest) ++ post
        = (pre ++ le16 4 ++ d.takeD 26 0) ++ le16 (32 + encSize rest)
            ++ (le16 (32 + encSize rest + encSize front)
            ++ (enc rest ++ (enc front ++ (enc back ++ post)))) by
          simp only [enc, List.append_assoc],
        show pre.length + 28 = (pre ++ le16 4 ++ d.takeD 26 0).length by
          simp only [List.length_append, le16_length, List.takeD_length] <;> omega]
      exact readS16_at _ _ (by omega) _
    have ho2 : readS16 (pre ++ enc (.sortnorm d front back rest) ++ post) (pre.length + 30)
        = some ((32 + encSize rest + encSize front : Nat) : Int) := by
      rw [show pre ++ enc (PolyTree.sortnorm d front back rest) ++ post
        = (pre ++ le16 4 ++ d.takeD 26 0 ++ le16 (32 + encSize rest))
            ++ le16 (32 + encSize rest + encSize front)
            ++ (enc rest ++ (enc front ++ (enc back ++ post))) by
          simp only [enc, List.append_assoc],
        show pre.length + 30
            = (pre ++ le16 4 ++ d.takeD 26 0 ++ le16 (32 + encSize rest)).length by
          simp only [List.length_append, le16_length, List.takeD_length] <;> omega]
      exact readS16_at _ _ (by omega) _
    rw [init_step_sortnorm _ fl _ _ _ h hop ho1 (by omega) ho2 (by omega)]
    have hfront2 : init_model_sub (pre ++ enc (.sortnorm d front back rest) ++ post) fl
        (((pre.length : Int) + ((32 + encSize rest : Nat) : Int)).toNat) h
        = .ok (scanTree front h) := by
      rw [show ((pre.length : Int) + ((32 + encSize rest : Nat) : Int)).toNat
          = (pre ++ le16 4 ++ d.takeD 26 0 ++ le16 (32 + encSize rest)
              ++ le16 (32 + encSize rest + encSize front) ++ enc rest).length by
          simp only [List.length_append, le16_length, List.takeD_length, length_enc] <;> omega,
        show pre ++ enc (PolyTree.sortnorm d front back rest) ++ post
          = (pre ++ le16 4 ++ d.takeD 26 0 ++ le16 (32 + encSize rest)
              ++ le16 (32 + encSize rest + encSize front) ++ enc rest)
              ++ enc front ++ (enc back ++ post) by
          simp only [enc, List.append_assoc]]
      exact ihf _ _ h fl hwf_f (by omega)
    rw [hfront2]
    dsimp only
    have hback2 : init_model_sub (pre ++ enc (.sortnorm d front back rest) ++ post) fl
        (((pre.length : Int) + ((32 + encSize rest + encSize front : Nat) : Int)).toNat)
        (scanTree front h)
        = .ok (scanTree back (scanTree front h)) := by
      rw [show ((pre.length : Int) + ((32 + encSize rest + encSize front : Nat) : Int)).toNat
          = (pre ++ le16 4 ++ d.takeD 26 0 ++ le16 (32 + encSize rest)
              ++ le16 (32 + encSize rest + encSize front) ++ enc rest ++ enc front).length by
          simp only [List.length_append, le16_length, List.takeD_length, length_enc] <;> omega,
        show pre ++ enc (PolyTree.sortnorm d front back rest) ++ post
          = (pre ++ le16 4 ++ d.takeD 26 0 ++ le16 (32 + encSize rest)
              ++ le16 (32 + encSize rest + encSize front) ++ enc rest ++ enc front)
              ++ enc back ++ post by
          simp only [enc, List.append_assoc]]
      exact ihb _ _ (scanTree front h) fl hwf_b (by omega)
    rw [hback2]
    dsimp only
    rw [show pre.length + record_size 4 0
        = (pre ++ le16 4 ++ d.takeD 26 0 ++ le16 (32 + encSize rest)
            ++ le16 (32 + encSize rest + encSize front)).length by
        simp only [List.length_append, le16_length, List.takeD_length]
        rw [show record_size 4 0 = 32 from rfl] <;> omega,
      show pre ++ enc (PolyTree.sortnorm d front back rest) ++ post
        = (pre ++ le16 4 ++ d.takeD 26 0 ++ le16 (32 + encSize rest)
            ++ le16 (32 + encSize rest + encSize front))
            ++ enc rest ++ (enc front ++ (enc back ++ post)) by
          simp only [enc, List.append_assoc]]
    exact ihr _ _ (scanTree back (scanTree front h)) fl hwf_r (by omega)
  | rodbm d rest ih =>
    intro pre post h fuel hwf hfuel
    simp only [wfTree] at hwf
    simp only [nodes] at hfuel
    obtain ⟨fl, rfl⟩ : ∃ fl, fuel = fl + 1 := ⟨fuel - 1, by omega⟩
    have hop : read16 (pre ++ enc (.rodbm d rest) ++ post) pre.length = some 5 := by
      rw [show pre ++ enc (PolyTree.rodbm d rest) ++ post
        = pre ++ le16 5 ++ (d.takeD 34 0 ++ (enc rest ++ post)) by
          simp only [enc, List.append_assoc]]
      exact read16_at pre 5 (by omega) _
    rw [init_step_rodbm _ fl _ h hop]
    rw [show pre.length + record_size 5 0 = (pre ++ le16 5 ++ d.takeD 34 0).length by
        simp only [List.length_append, le16_length, List.takeD_length]
        rw [show record_size 5 0 = 36 from rfl] <;> omega,
      show pre ++ enc (PolyTree.rodbm d rest) ++ post
        = (pre ++ le16 5 ++ d.takeD 34 0) ++ enc rest ++ post by
          simp only [enc, List.append_assoc]]
    exact ih _ post h fl hwf (by omega)
  | subcall d1 d2 sub rest ihs ihr =>
    intro pre post h fuel hwf hfuel
    simp only [wfTree, Bool.and_eq_true, decide_eq_true_eq] at hwf
    obtain ⟨⟨hoff, hwf_s⟩, hwf_r⟩ := hwf
    simp only [nodes] at hfuel
    obtain ⟨fl, rfl⟩ : ∃ fl, fuel = fl + 1 := ⟨fuel - 1, by omega⟩
    have hop : read16 (pre ++ enc (.subcall d1 d2 sub rest) ++ post) pre.length
        = some 6 := by
      rw [show pre ++ enc (PolyTree.subcall d1 d2 sub rest) ++ post
        = pre ++ le16 6 ++ (d1.takeD 14 0 ++ (le16 (20 + encSize rest)
            ++ (d2.takeD 2 0 ++ (enc rest ++ (enc sub ++ post))))) by
          simp only [enc, List.append_assoc]]
      exact read16_at pre 6 (by omega) _
    have hoffrd : readS16 (pre ++ enc (.subcall d1 d2 sub rest) ++ post) (pre.length + 16)
        = some ((20 + encSize rest : Nat) : Int) := by
      rw [show pre ++ enc (PolyTree.subcall d1 d2 sub rest) ++ post
        = (pre ++ le16 6 ++ d1.takeD 14 0) ++ le16 (20 + encSize rest)
            ++ (d2.takeD 2 0 ++ (enc rest ++ (enc sub ++ post))) by
          simp only [enc, List.append_assoc],
        show pre.length + 16 = (pre ++ le16 6 ++ d1.takeD 14 0).length by
          simp only [List.length_append, le16_length, List.takeD_length] <;> omega]
      exact readS16_at _ _ (by omega) _
    rw [init_step_subcall _ fl _ _ h hop hoffrd (by omega)]
    have hsub2 : init_model_sub (pre ++ enc (.subcall d1 d2 sub rest) ++ post) fl
        (((pre.length : Int) + ((20 + encSize rest : Nat) : Int)).toNat) h
        = .ok (scanTree sub h) := by
      rw [show ((pre.length : Int) + ((20 + encSize rest : Nat) : Int)).toNat
          = (pre ++ le16 6 ++ d1.takeD 14 0 ++ le16 (20 + encSize rest)
              ++ d2.takeD 2 0 ++ enc rest).length by
          simp only [List.length_append, le16_length, List.takeD_length, length_enc] <;> omega,
        show pre ++ enc (PolyTree.subcall d1 d2 sub rest) ++ post
          = (pre ++ le16 6 ++ d1.takeD 14 0 ++ le16 (20 + encSize rest)
              ++ d2.takeD 2 0 ++ enc rest) ++ enc sub ++ post by
          simp only [enc, List.append_assoc]]
      exact ihs _ _ h fl hwf_s (by omega)
    rw [hsub2]
    dsimp only
    rw [show pre.length + record_size 6 0
        = (pre ++ le16 6 ++ d1.takeD 14 0 ++ le16 (20 + encSize rest)
            ++ d2.takeD 2 0).length by
        simp only [List.length_append, le16_length, List.takeD_length]
        rw [show record_size 6 0 = 20 from rfl] <;> omega,
      show pre ++ enc (PolyTree.subcall d1 d2 sub rest) ++ post
        = (pre ++ le16 6 ++ d1.takeD 14 0 ++ le16 (20 + encSize rest)
            ++ d2.takeD 2 0) ++ enc rest ++ (enc sub ++ post) by
          simp only [enc, List.append_assoc]]
    exact ihr _ _ (scanTree sub h) fl hwf_r (by omega)
  | glow g rest ih =>
    intro pre post h fuel hwf hfuel
    simp only [wfTree, Bool.and_eq_true, decide_eq_true_eq] at hwf
    obtain ⟨hg, hwrest⟩ := hwf
    simp only [nodes] at hfuel
    obtain ⟨fl, rfl⟩ : ∃ fl, fuel = fl + 1 := ⟨fuel - 1, by omega⟩
    have hop : read16 (pre ++ enc (.glow g rest) ++ post) pre.length = some 8 := by
      rw [show pre ++ enc (PolyTree.glow g rest) ++ post
        = pre ++ le16 8 ++ (le16 g ++ (enc rest ++ post)) by
          simp only [enc, List.append_assoc]]
      exact read16_at pre 8 (by omega) _
    rw [init_step_glow _ fl _ h hop]
    rw [show pre.length + record_size 8 0 = (pre ++ le16 8 ++ le16 g).length by
        simp only [List.length_append, le16_length]
        rw [show record_size 8 0 = 4 from rfl] <;> omega,
      show pre ++ enc (PolyTree.glow g rest) ++ post
        = (pre ++ le16 8 ++ le16 g) ++ enc rest ++ post by
          simp only [enc, List.append_assoc]]
    exact ih _ post h fl hwrest (by omega)

/-- Claim C8: for every well-formed model hierarchy (nested `SortByNormal`
branches and `SubmodelCall` sub-models), the init scan
(`g3_init_polygon_model`, seed -1) returns the maximum texture index
referenced by any `TexturedPolygon` record of the whole hierarchy. -/
theorem C8_theorem (t : PolyTree) (fuel : Nat)
    (hwf : wfTree t = true) (hfuel : nodes t ≤ fuel) :
    g3_init_polygon_model (enc t) fuel = .ok (List.foldl max (-1) (texList t)) := by
  unfold g3_init_polygon_model
  have h := init_model_sub_enc t [] [] (-1) fuel hwf hfuel
  simp only [List.append_nil, List.nil_append, List.length_nil] at h
  rw [h, scanTree_foldl]

/-- Claim C8 witness: the spec's instance — texture indices {3, 7, 1}
nested inside `SortByNormal` and `SubmodelCall` branches — yields 7. -/
theorem C8_witness : g3_init_polygon_model (enc exampleTree) 20 = .ok 7 := by
  rw [C8_theorem exampleTree 20 (by decide) (by decide)]
  decide

/-- Claim C10: every known non-EndOfStream record length is even, and a
traversal of the dispatch loop started at a 2-byte-aligned position only
ever dispatches records at 2-byte-aligned positions and halts with the
cursor at a 2-byte-aligned position. -/
theorem C10_theorem :
    (∀ op n : Nat, 1 ≤ op → op ≤ 8 → record_size op n % 2 = 0)
    ∧ ∀ (buf : List Nat) (fuel p q : Nat) (tr : List Nat), p % 2 = 0 →
        iterate_polymodel buf fuel p = .ok (q, tr) →
        q % 2 = 0 ∧ ∀ x ∈ tr, x % 2 = 0 := by
  have hsize : ∀ op n : Nat, 1 ≤ op → op ≤ 8 → record_size op n % 2 = 0 := by
    intro op n h1 h8
    interval_cases op <;> simp [record_size] <;> omega
  refine ⟨hsize, ?_⟩
  intro buf fuel
  induction fuel with
  | zero => intro p q tr _ hrun; simp [iterate_polymodel] at hrun
  | succ fuel ih =>
    intro p q tr hp hrun
    rcases hop : read16 buf p with _ | op
    · rw [iterate_polymodel, hop] at hrun; simp at hrun
    · by_cases h0 : op = 0
      · subst h0
        rw [iterate_polymodel_eof buf fuel p hop] at hrun
        obtain ⟨hq, htr⟩ := Prod.mk.injEq .. ▸ Except.ok.inj hrun
        subst hq; subst htr
        exact ⟨hp, by simp⟩
      · by_cases hv : op = 1 ∨ op = 7 ∨ op = 2 ∨ op = 3
        · rcases hn : read16 buf (p + 2) with _ | n
          · rw [iterate_polymodel, hop] at hrun
            simp only [if_neg h0, if_pos hv, hn] at hrun
            exact Except.noConfusion hrun
          · rw [iterate_polymodel_var buf fuel p op n hop hv hn] at hrun
            rcases hrec : iterate_polymodel buf fuel (p + record_size op n) with e | ⟨q2, tr2⟩
            · rw [hrec] at hrun; exact absurd hrun (by simp)
            · rw [hrec] at hrun
              obtain ⟨hq, htr⟩ := Prod.mk.injEq .. ▸ Except.ok.inj hrun
              have heven : (p + record_size op n) % 2 = 0 := by
                have := hsize op n (by omega) (by omega)
                omega
              obtain ⟨hq2, htr2⟩ := ih (p + record_size op n) q2 tr2 heven hrec
              subst hq
              refine ⟨hq2, ?_⟩
              intro x hx
              rw [← htr] at hx
              rcases List.mem_cons.mp hx with h | h
              · omega
              · exact htr2 x h
        · by_cases hf : op = 4 ∨ op = 5 ∨ op = 6 ∨ op = 8
          · rw [iterate_polymodel_fixed buf fuel p op hop hf] at hrun
            rcases hrec : iterate_polymodel buf fuel (p + record_size op 0) with e | ⟨q2, tr2⟩
            · rw [hrec] at hrun; exact absurd hrun (by simp)
            · rw [hrec] at hrun
              obtain ⟨hq, htr⟩ := Prod.mk.injEq .. ▸ Except.ok.inj hrun
              have heven : (p + record_size op 0) % 2 = 0 := by
                have := hsize op 0 (by omega) (by omega)
                omega
              obtain ⟨hq2, htr2⟩ := ih (p + record_size op 0) q2 tr2 heven hrec
              subst hq
              refine ⟨hq2, ?_⟩
              intro x hx
              rw [← htr] at hx
              rcases List.mem_cons.mp hx with h | h
              · omega
              · exact htr2 x h
          · have h9 : 8 < op := by omega
            rw [iterate_polymodel_unknown buf fuel p op hop h9] at hrun
            exact absurd hrun (by simp)

/-- Claim C10 witness: a buffer holding one `Glow` record then
`EndOfStream`; the traversal from position 0 dispatches at 0 and halts at
4, all even. -/
theorem C10_witness :
    record_size 2 5 % 2 = 0
    ∧ (4 % 2 = 0 ∧ ∀ x ∈ [0], x % 2 = 0) :=
  ⟨C10_theorem.1 2 5 (by decide) (by decide),
   C10_theorem.2 [8, 0, 9, 0, 0, 0] 2 0 4 [0] (by decide) (by decide)⟩

/-- Claim C6, counterexample: the byte-swap pass is not an involution.  On
the foreign-order buffer `[8,0, 5,0, 0,0]` (a `Glow` record then
`EndOfStream`) a first pass succeeds and produces the native-order buffer
`[0,8, 0,5, 0,0]`; running the pass again on that buffer aborts with
`MalformedModel` — `translate_opcode` byte-swaps the now-native tag 8 into
2048 before dispatching — so the second run does not restore the original
byte content (it corrupts the tag in place and throws). -/
theorem C6_counterexample :
    swap_polygon_model_data [8, 0, 5, 0, 0, 0] 10 0 = .ok ([0, 8, 0, 5, 0, 0], 4)
    ∧ swap_polygon_model_data [0, 8, 0, 5, 0, 0] 10 0 = .error .malformedModel
    ∧ ([0, 8, 0, 5, 0, 0] : List Nat) ≠ [8, 0, 5, 0, 0, 0] := by decide

/-- Claim C6 (amended): `swap_polygon_model_data` converts a foreign-order
buffer to native order and must run exactly once: a second pass over any
buffer whose first tag is already native (first byte pair `0, k` with a
known nonzero opcode `k`, as a completed first pass leaves it) byte-swaps
that tag into the unknown opcode `k * 256` and aborts with
`MalformedModel` at the very first record; only a buffer beginning with
`EndOfStream` is left unchanged by a repeated pass. -/
theorem C6_theorem (k : Nat) (rest : List Nat) (fuel : Nat)
    (h1 : 1 ≤ k) (h8 : k ≤ 8) :
    swap_polygon_model_data (0 :: k :: rest) (fuel + 1) 0 = .error .malformedModel := by
  have hread : read16BE (0 :: k :: rest) 0 = some k := by
    unfold read16BE
    show some (0 * 256 + k) = some k
    congr 1
    omega
  have hsw : SWAPSHORT k = k * 256 := by
    unfold SWAPSHORT
    omega
  have hw : write16BE (0 :: k :: rest) 0 (k * 256) = some (k :: 0 :: rest) := by
    unfold write16BE
    rw [if_pos (by simp)]
    have e1 : k * 256 / 256 % 256 = k := by omega
    have e2 : k * 256 % 256 = 0 := by omega
    rw [e1, e2]
    rfl
  rw [swap_polygon_model_data, hread]
  dsimp only
  rw [if_neg (by omega : ¬ k = 0), hsw, hw]
  dsimp only
  rw [if_neg (by omega : ¬ k * 256 = 1), if_neg (by omega : ¬ k * 256 = 7),
    if_neg (by omega : ¬ k * 256 = 2), if_neg (by omega : ¬ k * 256 = 3),
    if_neg (by omega : ¬ k * 256 = 4), if_neg (by omega : ¬ k * 256 = 5),
    if_neg (by omega : ¬ k * 256 = 6), if_neg (by omega : ¬ k * 256 = 8)]

/-- Claim C6 witness: a repeated pass over the native-order buffer
`[0, 8]` (a native `Glow` tag) fails at once. -/
theorem C6_witness :
    1 ≤ 8 ∧ 8 ≤ 8
    ∧ swap_polygon_model_data [0, 8] 1 0 = .error .malformedModel :=
  ⟨by decide, by decide, C6_theorem 8 [] 0 (by decide) (by decide)⟩

end Theorems

end Interp
